import Mathlib

/-!
Shallow embedding of `src/sks.py` (SKS parcel-service payment tracker).

The program keeps two SQLite tables:
  customers(id PK autoincrement, name UNIQUE)
  weekly_payments(id PK autoincrement, customer_id, week_start, day,
                  total, received, balance)
and six helper functions over them (`add_customer`, `delete_customer`,
`get_customers`, `save_week_data`, `get_weeks_for_customer`,
`get_week_data`), plus a pure invoice renderer `generate_invoice_pdf`
and the balance computation `temp_df["Balance"] = Total - Received` /
`df["Balance"].sum()` from the UI layer.

The tables are modelled as lists of rows in rowid (insertion) order,
which is the order an unordered SQLite `SELECT` scan returns; the
AUTOINCREMENT counters are carried explicitly.  Monetary REAL values
are modelled as `Int` (the claims do not depend on fractional values),
dates and day names as `String`.
-/

namespace SKS

/-- A row of the `customers` table: `id INTEGER PRIMARY KEY AUTOINCREMENT`,
`name TEXT UNIQUE`. -/
structure Customer where
  id : Nat
  name : String
deriving DecidableEq

/-- A row of the `weekly_payments` table (src/sks.py lines 18-27). -/
structure PaymentRow where
  id : Nat
  customer_id : Nat
  week_start : String
  day : String
  total : Int
  received : Int
  balance : Int
deriving DecidableEq

/-- A row of the dataframe passed to `save_week_data` / returned by
`get_week_data`: the columns Day, Total, Received, Balance. -/
structure WeekRow where
  day : String
  total : Int
  received : Int
  balance : Int
deriving DecidableEq

/-- The persistent state: both tables plus the AUTOINCREMENT counters.
SQLite AUTOINCREMENT hands out ids starting from 1. -/
structure DBState where
  customers : List Customer
  weekly_payments : List PaymentRow
  next_customer_id : Nat
  next_payment_id : Nat
deriving DecidableEq

/-- The freshly created database: both tables empty (src/sks.py lines 13-28). -/
def initState : DBState := ⟨[], [], 1, 1⟩

/-- `add_customer(name)` (src/sks.py lines 31-36): `INSERT INTO customers
(name) VALUES (?)` inside `try/except: pass`.  The only failure mode of the
insert is the UNIQUE constraint on `name`, so when a customer with that name
exists the exception is swallowed and the state is unchanged. -/
def add_customer (name : String) (s : DBState) : DBState :=
  if s.customers.any (fun cu => cu.name == name) then s
  else { s with
         customers := s.customers ++ [⟨s.next_customer_id, name⟩],
         next_customer_id := s.next_customer_id + 1 }

/-- `delete_customer(customer_id)` (src/sks.py lines 38-41): delete the
customer's `weekly_payments` rows, then the customer itself. -/
def delete_customer (customer_id : Nat) (s : DBState) : DBState :=
  { s with
    weekly_payments := s.weekly_payments.filter (fun p => p.customer_id != customer_id),
    customers := s.customers.filter (fun cu => cu.id != customer_id) }

/-- `get_customers()` (src/sks.py lines 43-45): `SELECT * FROM customers`,
returning (id, name) tuples in rowid order. -/
def get_customers (s : DBState) : List (Nat × String) :=
  s.customers.map (fun cu => (cu.id, cu.name))

/-- The `WHERE customer_id=? AND week_start=?` condition used by
`save_week_data` and `get_week_data`. -/
def matchesKey (customer_id : Nat) (week_start : String) (p : PaymentRow) : Bool :=
  p.customer_id == customer_id && p.week_start == week_start

/-- The insert loop of `save_week_data` (src/sks.py lines 49-53): one
`INSERT INTO weekly_payments` per dataframe row, each receiving the next
AUTOINCREMENT id. -/
def insertRows (customer_id : Nat) (week_start : String) (nid : Nat) :
    List WeekRow → List PaymentRow
  | [] => []
  | r :: rs =>
      ⟨nid, customer_id, week_start, r.day, r.total, r.received, r.balance⟩ ::
        insertRows customer_id week_start (nid + 1) rs

/-- `save_week_data(customer_id, week_start, df)` (src/sks.py lines 47-54):
`DELETE FROM weekly_payments WHERE customer_id=? AND week_start=?`, then
insert every row of `df` in order. -/
def save_week_data (customer_id : Nat) (week_start : String) (df : List WeekRow)
    (s : DBState) : DBState :=
  { s with
    weekly_payments :=
      s.weekly_payments.filter (fun p => !(matchesKey customer_id week_start p))
        ++ insertRows customer_id week_start s.next_payment_id df,
    next_payment_id := s.next_payment_id + df.length }

/-- `get_weeks_for_customer(customer_id)` (src/sks.py lines 56-58):
`SELECT DISTINCT week_start FROM weekly_payments WHERE customer_id=?`.
Deduplication keeps the first occurrence of each value. -/
def get_weeks_for_customer (customer_id : Nat) (s : DBState) : List String :=
  ((s.weekly_payments.filter (fun p => p.customer_id == customer_id)).map
    (fun p => p.week_start)).eraseDups

/-- `get_week_data(customer_id, week_start)` (src/sks.py lines 60-64):
`SELECT day, total, received, balance FROM weekly_payments WHERE
customer_id=? AND week_start=?`, as a dataframe with columns
Day, Total, Received, Balance. -/
def get_week_data (customer_id : Nat) (week_start : String) (s : DBState) :
    List WeekRow :=
  (s.weekly_payments.filter (matchesKey customer_id week_start)).map
    (fun p => ⟨p.day, p.total, p.received, p.balance⟩)

/-- The balance computation `temp_df["Balance"] = temp_df["Total"] -
temp_df["Received"]` (src/sks.py line 148), applied entrywise. -/
def balance (total received : Int) : Int := total - received

/-- `df["Balance"].sum()` (src/sks.py lines 93, 149, 182): the running sum
of the Balance column, starting from pandas' zero. -/
def weekPendingTotal (rows : List WeekRow) : Int :=
  rows.foldl (fun acc r => acc + r.balance) 0

/-! ### Invoice renderer (src/sks.py lines 66-98)

The renderer is embedded at the level of the text the PDF commands draw:
the title, the week line, the four header cells, four cells per data row,
and the footer line.  `₹{x:.2f}` on an integral amount prints the integer
followed by `.00`.

This embedding deliberately does NOT model the byte stream returned by
`pdf.output(dest="S")` on line 97: that serialization is performed by the
external FPDF library, whose document-info dictionary embeds a
creation-date timestamp read from the wall clock, so the returned bytes
are not a function of the drawn content alone. -/

/-- The `₹{x:.2f}` formatting of a monetary value (integral in this model). -/
def fmtMoney (x : Int) : String := "₹" ++ toString x ++ ".00"

/-- The four cells one dataframe row contributes (src/sks.py lines 86-89). -/
def rowCells (r : WeekRow) : List String :=
  [r.day, fmtMoney r.total, fmtMoney r.received, fmtMoney r.balance]

/-- The drawn content of `generate_invoice_pdf(customer_name, week_start,
df)` (src/sks.py lines 66-96): title, week line, header cells, one group of
cells per row, and the total-pending footer computed as
`df["Balance"].sum()` (line 93).  This is the part of the output the
repository's own code determines; the surrounding PDF byte stream (line 97)
is produced by the external library and carries a wall-clock timestamp. -/
def generate_invoice_pdf (customer_name week_start : String) (df : List WeekRow) :
    List String :=
  ["Invoice for " ++ customer_name,
   "Week Starting: " ++ week_start,
   "Day", "Total", "Received", "Balance"]
  ++ (df.map rowCells).flatten
  ++ ["Total Pending Balance: " ++ fmtMoney (weekPendingTotal df)]

/-! ### Operation traces (for the referential-integrity invariant) -/

/-- One state-mutating operation of the helper API. -/
inductive Op where
  | addC (name : String)
  | delC (customer_id : Nat)
  | save (customer_id : Nat) (week_start : String) (df : List WeekRow)
deriving DecidableEq

/-- Apply one operation to the database state. -/
def applyOp (s : DBState) : Op → DBState
  | .addC n => add_customer n s
  | .delC i => delete_customer i s
  | .save i w df => save_week_data i w df s

/-- Run a sequence of operations left to right. -/
def runOps (s : DBState) : List Op → DBState
  | [] => s
  | op :: ops => runOps (applyOp s op) ops

/-- Whether a customer with the given id exists in the customers table. -/
def hasCustomer (customer_id : Nat) (cs : List Customer) : Bool :=
  cs.any (fun cu => cu.id == customer_id)

/-- Referential integrity: every stored payment row's `customer_id`
references an existing customer. -/
def refIntegrityB (s : DBState) : Bool :=
  s.weekly_payments.all (fun p => hasCustomer p.customer_id s.customers)

/-- The discipline the UI follows: every `save_week_data` call targets a
`customer_id` taken from the customers table as it stands at that point. -/
def uiValidB (s : DBState) : List Op → Bool
  | [] => true
  | op :: ops =>
      (match op with
       | Op.save i _ _ => hasCustomer i s.customers
       | _ => true) && uiValidB (applyOp s op) ops

/-- Non-negativity of the editable columns of a dataframe row. -/
def rowNonNeg (r : WeekRow) : Bool :=
  decide (0 ≤ r.total) && decide (0 ≤ r.received)

/-- Non-negativity of the total/received columns of a stored payment row. -/
def payNonNeg (p : PaymentRow) : Bool :=
  decide (0 ≤ p.total) && decide (0 ≤ p.received)

/-- The number of customers carrying a given name (the UNIQUE constraint
keeps this at most 1 in reachable states). -/
def countName (n : String) (s : DBState) : Nat :=
  s.customers.countP (fun cu => cu.name == n)

/-! ### Helper lemmas -/

/-- Filtering with `f` after keeping only elements that falsify `g ⊇ f`
leaves nothing. -/
theorem filter_filter_incompat {α : Type} (f g : α → Bool)
    (hfg : ∀ p, g p = true → f p = false) (l : List α) :
    (l.filter g).filter f = [] := by
  induction l with
  | nil => rfl
  | cons a l ih =>
    by_cases hg : g a = true
    · rw [List.filter_cons_of_pos hg, List.filter_cons_of_neg (by simp [hfg a hg]), ih]
    · rw [List.filter_cons_of_neg (by simpa using hg), ih]

/-- Filtering with `f` is unaffected by first removing elements that `f`
already rejects. -/
theorem filter_filter_compat {α : Type} (f g : α → Bool)
    (hfg : ∀ p, f p = true → g p = true) (l : List α) :
    (l.filter g).filter f = l.filter f := by
  induction l with
  | nil => rfl
  | cons a l ih =>
    by_cases hf : f a = true
    · rw [List.filter_cons_of_pos (hfg a hf), List.filter_cons_of_pos hf,
        List.filter_cons_of_pos hf, ih]
    · by_cases hg : g a = true
      · rw [List.filter_cons_of_pos hg, List.filter_cons_of_neg (by simpa using hf),
          List.filter_cons_of_neg (by simpa using hf), ih]
      · rw [List.filter_cons_of_neg (by simpa using hg),
          List.filter_cons_of_neg (by simpa using hf), ih]

/-- Every row produced by the insert loop carries the key it was saved
under. -/
theorem insertRows_key (cid : Nat) (ws : String) :
    ∀ (nid : Nat) (df : List WeekRow), ∀ p ∈ insertRows cid ws nid df,
      p.customer_id = cid ∧ p.week_start = ws := by
  intro nid df
  induction df generalizing nid with
  | nil => intro p hp; cases hp
  | cons r rs ih =>
    intro p hp
    rw [insertRows, List.mem_cons] at hp
    rcases hp with rfl | hp
    · exact ⟨rfl, rfl⟩
    · exact ih _ p hp

/-- The insert loop's rows all satisfy the saved key's filter. -/
theorem insertRows_filter_key (cid : Nat) (ws : String) (nid : Nat)
    (df : List WeekRow) :
    (insertRows cid ws nid df).filter (matchesKey cid ws) =
      insertRows cid ws nid df := by
  induction df generalizing nid with
  | nil => rfl
  | cons r rs ih =>
    rw [insertRows, List.filter_cons_of_pos (by simp [matchesKey]), ih]

/-- Projecting the selected columns back out of the insert loop's rows
recovers the dataframe that was saved. -/
theorem insertRows_proj (cid : Nat) (ws : String) (nid : Nat) (df : List WeekRow) :
    (insertRows cid ws nid df).map
        (fun p => (⟨p.day, p.total, p.received, p.balance⟩ : WeekRow)) = df := by
  induction df generalizing nid with
  | nil => rfl
  | cons r rs ih => rw [insertRows, List.map_cons, ih]

/-- Round trip: reading a week back immediately after saving it returns
exactly the saved dataframe. -/
theorem getWeek_saveWeek (cid : Nat) (ws : String) (df : List WeekRow)
    (s : DBState) :
    get_week_data cid ws (save_week_data cid ws df s) = df := by
  unfold get_week_data save_week_data
  rw [List.filter_append,
    filter_filter_incompat (matchesKey cid ws)
      (fun p => !(matchesKey cid ws p)) (by intro p hp; simpa using hp),
    List.nil_append, insertRows_filter_key, insertRows_proj]

/-- The payments table after `delete_customer`. -/
theorem delete_customer_payments (k : Nat) (s : DBState) :
    (delete_customer k s).weekly_payments =
      s.weekly_payments.filter (fun p => p.customer_id != k) := rfl

/-- The customers table after `delete_customer`. -/
theorem delete_customer_customers (k : Nat) (s : DBState) :
    (delete_customer k s).customers =
      s.customers.filter (fun cu => cu.id != k) := rfl

/-- The payments table after `save_week_data`. -/
theorem save_week_payments (cid : Nat) (ws : String) (df : List WeekRow)
    (s : DBState) :
    (save_week_data cid ws df s).weekly_payments =
      s.weekly_payments.filter (fun p => !(matchesKey cid ws p))
        ++ insertRows cid ws s.next_payment_id df := rfl

/-- The customers table after `save_week_data`. -/
theorem save_week_customers (cid : Nat) (ws : String) (df : List WeekRow)
    (s : DBState) :
    (save_week_data cid ws df s).customers = s.customers := rfl

/-- The running sum over the Balance column, from any accumulator. -/
theorem foldl_balance (l : List WeekRow) (acc : Int) :
    l.foldl (fun a r => a + r.balance) acc = acc + (l.map (fun r => r.balance)).sum := by
  induction l generalizing acc with
  | nil => simp
  | cons r rs ih => rw [List.foldl_cons, ih, List.map_cons, List.sum_cons]; ring

/-- An `all` check survives filtering. -/
theorem all_filter_of_all {α : Type} (p f : α → Bool) (l : List α)
    (h : l.all p = true) : (l.filter f).all p = true := by
  rw [List.all_eq_true] at h ⊢
  intro a ha
  exact h a (List.mem_filter.mp ha).1

/-- The insert loop preserves non-negativity of the editable columns. -/
theorem insertRows_all_nonneg (cid : Nat) (ws : String) (nid : Nat)
    (df : List WeekRow) (h : df.all rowNonNeg = true) :
    (insertRows cid ws nid df).all payNonNeg = true := by
  induction df generalizing nid with
  | nil => rfl
  | cons r rs ih =>
    simp only [List.all_cons, Bool.and_eq_true] at h
    rw [insertRows]
    simp only [List.all_cons, Bool.and_eq_true]
    exact ⟨h.1, ih _ h.2⟩

/-- Appending a customer cannot destroy an existing-customer check. -/
theorem hasCustomer_append (cid : Nat) (cs : List Customer) (c' : Customer)
    (h : hasCustomer cid cs = true) : hasCustomer cid (cs ++ [c']) = true := by
  unfold hasCustomer at h ⊢
  rw [List.any_append, h, Bool.true_or]

/-- `add_customer` preserves referential integrity. -/
theorem refIntegrity_add (n : String) (s : DBState)
    (h : refIntegrityB s = true) : refIntegrityB (add_customer n s) = true := by
  unfold add_customer
  by_cases hc : (s.customers.any (fun cu => cu.name == n)) = true
  · rw [if_pos hc]; exact h
  · rw [if_neg hc]
    unfold refIntegrityB at h ⊢
    simp only [List.all_eq_true] at h ⊢
    intro p hp
    exact hasCustomer_append _ _ _ (h p hp)

/-- `delete_customer` preserves referential integrity: the customer's own
rows are removed in the same step the customer is. -/
theorem refIntegrity_delete (k : Nat) (s : DBState)
    (h : refIntegrityB s = true) : refIntegrityB (delete_customer k s) = true := by
  unfold refIntegrityB at h ⊢
  rw [delete_customer_payments, delete_customer_customers]
  simp only [List.all_eq_true] at h ⊢
  intro p hp
  have hpm := List.mem_filter.mp hp
  have hP := h p hpm.1
  have hne : p.customer_id ≠ k := by simpa [bne_iff_ne] using hpm.2
  unfold hasCustomer at hP ⊢
  rw [List.any_eq_true] at hP ⊢
  obtain ⟨cu, hcu, hbeq⟩ := hP
  rw [beq_iff_eq] at hbeq
  refine ⟨cu, List.mem_filter.mpr ⟨hcu, ?_⟩, by rw [beq_iff_eq]; exact hbeq⟩
  rw [bne_iff_ne]
  rw [hbeq]
  exact hne

/-- `save_week_data` preserves referential integrity when the saved
customer id exists. -/
theorem refIntegrity_save (cid : Nat) (ws : String) (df : List WeekRow)
    (s : DBState) (hc : hasCustomer cid s.customers = true)
    (h : refIntegrityB s = true) :
    refIntegrityB (save_week_data cid ws df s) = true := by
  unfold refIntegrityB at h ⊢
  rw [save_week_payments, save_week_customers]
  simp only [List.all_eq_true] at h ⊢
  intro p hp
  rw [List.mem_append] at hp
  rcases hp with hp | hp
  · exact h p (List.mem_filter.mp hp).1
  · have hk := (insertRows_key cid ws _ df p hp).1
    rw [hk]
    exact hc

/-! ### Claims -/

/-- Claim C1: round trip — after `save_week_data(c, w, rows)`,
`get_week_data(c, w)` returns exactly the rows last saved for that key
(the same Day/Total/Received/Balance tuples), regardless of any rows
previously stored for `(c, w)`: the old rows are fully replaced, never
merged. -/
theorem sks_C1 (cid : Nat) (ws : String) (df : List WeekRow) (s : DBState) :
    get_week_data cid ws (save_week_data cid ws df s) = df :=
  getWeek_saveWeek cid ws df s

/-- Claim C2: idempotence — saving the same rows twice in succession leaves
`get_week_data(c, w)` identical to the state after a single save. -/
theorem sks_C2 (cid : Nat) (ws : String) (df : List WeekRow) (s : DBState) :
    get_week_data cid ws (save_week_data cid ws df (save_week_data cid ws df s)) =
      get_week_data cid ws (save_week_data cid ws df s) := by
  rw [getWeek_saveWeek, getWeek_saveWeek]

/-- Claim C3: the balance computation is exactly `total - received` for
every pair, with no special-casing — an overpayment passes through as the
negative difference. -/
theorem sks_C3 (total received : Int) : balance total received = total - received :=
  rfl

/-- Claim C4: `weekPendingTotal` (the `df["Balance"].sum()` aggregate)
equals the sum of the balance field over all rows, and is 0 on the empty
row sequence. -/
theorem sks_C4 (rows : List WeekRow) :
    weekPendingTotal rows = (rows.map (fun r => r.balance)).sum ∧
    weekPendingTotal ([] : List WeekRow) = 0 :=
  ⟨by unfold weekPendingTotal; rw [foldl_balance, zero_add], rfl⟩

/-- Claim C5: in every starting state in which a customer named `n` already
exists — wherever in the table it sits — `add_customer n` is a silent no-op:
no error, state (hence customer list) unchanged.  A second `add_customer n`
right after a first is always such a no-op, and starting from a state with
no customer named `n`, two calls leave exactly one customer of that name. -/
theorem sks_C5 (n : String) (s : DBState) :
    (s.customers.any (fun cu => cu.name == n) = true → add_customer n s = s) ∧
    add_customer n (add_customer n s) = add_customer n s ∧
    (countName n s = 0 →
      countName n (add_customer n (add_customer n s)) = 1) := by
  have hnoop : ∀ t : DBState, t.customers.any (fun cu => cu.name == n) = true →
      add_customer n t = t := by
    intro t ht
    unfold add_customer
    rw [if_pos ht]
  have hmem : (add_customer n s).customers.any (fun cu => cu.name == n) = true := by
    unfold add_customer
    by_cases hc : (s.customers.any (fun cu => cu.name == n)) = true
    · rw [if_pos hc]; exact hc
    · rw [if_neg hc]
      simp [List.any_append]
  have h2 : add_customer n (add_customer n s) = add_customer n s := hnoop _ hmem
  refine ⟨hnoop s, h2, ?_⟩
  intro h
  rw [h2]
  unfold countName at h
  have hany : (s.customers.any (fun cu => cu.name == n)) = false := by
    rw [List.any_eq_false]
    intro cu hcu
    exact List.countP_eq_zero.mp h cu hcu
  have hs' : add_customer n s =
      { s with customers := s.customers ++ [⟨s.next_customer_id, n⟩],
               next_customer_id := s.next_customer_id + 1 } := by
    unfold add_customer
    rw [if_neg (by rw [hany]; exact Bool.false_ne_true)]
  rw [hs']
  unfold countName
  rw [List.countP_append, h]
  simp

/-- Witness for C5 at concrete inputs: re-adding "Acme" to a table in which
"Acme" is followed by a later customer ("Bob") changes nothing, and two
`add_customer "Acme"` calls on the fresh database leave exactly one
customer named "Acme". -/
theorem sks_C5_witness :
    ((add_customer "Bob" (add_customer "Acme" initState)).customers.any
        (fun cu => cu.name == "Acme") = true ∧
     add_customer "Acme" (add_customer "Bob" (add_customer "Acme" initState)) =
       add_customer "Bob" (add_customer "Acme" initState)) ∧
    (countName "Acme" initState = 0 ∧
     countName "Acme" (add_customer "Acme" (add_customer "Acme" initState)) = 1) :=
  ⟨⟨by decide,
    (sks_C5 "Acme" (add_customer "Bob" (add_customer "Acme" initState))).1
      (by decide)⟩,
   ⟨by decide, (sks_C5 "Acme" initState).2.2 (by decide)⟩⟩

/-- Claim C6: after `delete_customer(c)`, `get_weeks_for_customer(c)` is
empty and `get_week_data(c, w)` is empty for every week `w` — absence is
emptiness, not an error. -/
theorem sks_C6 (cid : Nat) (ws : String) (s : DBState) :
    get_weeks_for_customer cid (delete_customer cid s) = [] ∧
    get_week_data cid ws (delete_customer cid s) = [] := by
  constructor
  · unfold get_weeks_for_customer
    rw [delete_customer_payments]
    rw [filter_filter_incompat (fun p : PaymentRow => p.customer_id == cid)
      (fun p : PaymentRow => p.customer_id != cid) ?_]
    · rfl
    · intro p hp
      rw [bne_iff_ne] at hp
      simpa using hp
  · unfold get_week_data
    rw [delete_customer_payments]
    rw [filter_filter_incompat (matchesKey cid ws)
      (fun p : PaymentRow => p.customer_id != cid) ?_]
    · rfl
    · intro p hp
      rw [bne_iff_ne] at hp
      simp [matchesKey, hp]

/-- Claim C7: under the caller-side guarantee (the UI's `min_value=0`
columns) that every saved row has non-negative Total and Received, and
given a store whose rows are all non-negative, `save_week_data` keeps
every stored row's total and received non-negative. -/
theorem sks_C7 (cid : Nat) (ws : String) (df : List WeekRow) (s : DBState)
    (h1 : df.all rowNonNeg = true)
    (h2 : s.weekly_payments.all payNonNeg = true) :
    (save_week_data cid ws df s).weekly_payments.all payNonNeg = true := by
  unfold save_week_data
  rw [List.all_append]
  rw [all_filter_of_all payNonNeg _ _ h2, insertRows_all_nonneg cid ws _ df h1]
  rfl

/-- Witness for C7 at a concrete input: saving one non-negative row into
the fresh database leaves only non-negative stored rows. -/
theorem sks_C7_witness :
    ([⟨"Mon", 100, 40, 60⟩] : List WeekRow).all rowNonNeg = true ∧
    (save_week_data 1 "2024-06-03" [⟨"Mon", 100, 40, 60⟩]
        initState).weekly_payments.all payNonNeg = true :=
  ⟨by decide,
   sks_C7 1 "2024-06-03" [⟨"Mon", 100, 40, 60⟩] initState (by decide) (by decide)⟩

/-- Counterexample to C9 as stated: the state reached from the empty
database by the single call `save_week_data(1, "2024-06-03", [one row])`
— a sequence of the three operations — stores a payment row whose
customer_id 1 references no existing customer: `save_week_data` performs
no existence check. -/
theorem sks_C9_counterexample :
    refIntegrityB (runOps initState
      [Op.save 1 "2024-06-03" [⟨"Mon", 100, 40, 60⟩]]) = false := by
  decide

/-- Claim C9 (amended): referential integrity is an invariant of every
operation sequence in which each `save_week_data` call targets a customer
id present in the customers table at the time of the call — the discipline
the UI follows by construction. `add_customer` and `delete_customer`
preserve it unconditionally (deletion removes the customer's rows in the
same step). -/
theorem sks_C9 (ops : List Op) (s : DBState)
    (hs : refIntegrityB s = true) (hv : uiValidB s ops = true) :
    refIntegrityB (runOps s ops) = true := by
  induction ops generalizing s with
  | nil => exact hs
  | cons op ops ih =>
    rw [runOps]
    cases op with
    | addC n =>
      simp only [uiValidB, Bool.true_and] at hv
      exact ih _ (refIntegrity_add n s hs) hv
    | delC k =>
      simp only [uiValidB, Bool.true_and] at hv
      exact ih _ (refIntegrity_delete k s hs) hv
    | save cid ws df =>
      simp only [uiValidB, Bool.and_eq_true] at hv
      exact ih _ (refIntegrity_save cid ws df s hv.1 hs) hv.2

/-- Witness for C9 at a concrete trace: add a customer, then save a week
for it; referential integrity holds in the resulting state. -/
theorem sks_C9_witness :
    refIntegrityB initState = true ∧
    uiValidB initState
      [Op.addC "Ravi", Op.save 1 "2024-06-03" [⟨"Mon", 100, 40, 60⟩]] = true ∧
    refIntegrityB (runOps initState
      [Op.addC "Ravi", Op.save 1 "2024-06-03" [⟨"Mon", 100, 40, 60⟩]]) = true :=
  ⟨by decide, by decide,
   sks_C9 [Op.addC "Ravi", Op.save 1 "2024-06-03" [⟨"Mon", 100, 40, 60⟩]]
     initState (by decide) (by decide)⟩

/-- Claim C10: frame property of `save_week_data` — the customers table is
untouched, and the rows of every other (customer, week) key read back
exactly as before the call. -/
theorem sks_C10 (cid : Nat) (ws : String) (df : List WeekRow) (s : DBState)
    (cid' : Nat) (ws' : String) (h : ¬(cid' = cid ∧ ws' = ws)) :
    (save_week_data cid ws df s).customers = s.customers ∧
    get_week_data cid' ws' (save_week_data cid ws df s) =
      get_week_data cid' ws' s := by
  refine ⟨rfl, ?_⟩
  unfold get_week_data save_week_data
  rw [List.filter_append]
  have hins : (insertRows cid ws s.next_payment_id df).filter
      (matchesKey cid' ws') = [] := by
    rw [List.filter_eq_nil_iff]
    intro p hp
    obtain ⟨e1, e2⟩ := insertRows_key cid ws _ df p hp
    simp only [matchesKey, e1, e2, Bool.and_eq_true, beq_iff_eq]
    rintro ⟨rfl, rfl⟩
    exact h ⟨rfl, rfl⟩
  rw [hins, List.append_nil]
  congr 1
  apply filter_filter_compat
  intro p hp
  simp only [matchesKey, Bool.and_eq_true, beq_iff_eq] at hp
  by_cases hcc : cid' = cid
  · have hww : ws' ≠ ws := fun hw => h ⟨hcc, hw⟩
    simp [matchesKey, hp.1, hp.2, hcc, hww]
  · simp [matchesKey, hp.1, hcc]

/-- Witness for C10 at a concrete input: saving week "2024-06-03" of
customer 1 does not disturb the (empty) data of customer 2. -/
theorem sks_C10_witness :
    ¬((2 : Nat) = 1 ∧ "2024-06-10" = "2024-06-03") ∧
    ((save_week_data 1 "2024-06-03" [⟨"Mon", 100, 40, 60⟩]
        initState).customers = initState.customers ∧
     get_week_data 2 "2024-06-10"
        (save_week_data 1 "2024-06-03" [⟨"Mon", 100, 40, 60⟩] initState) =
       get_week_data 2 "2024-06-10" initState) :=
  ⟨by decide,
   sks_C10 1 "2024-06-03" [⟨"Mon", 100, 40, 60⟩] initState 2 "2024-06-10"
     (by decide)⟩

end SKS
